import Mathlib

/-!
Shallow embedding of the event notification scheduler of
`src/main/services/ProductivityEvaluatorService.js` (class `NotificationService`).

Times are JavaScript millisecond timestamps, modelled as `Int`.
The `scheduledNotifications` Map (AlertKey -> armed timeout) is modelled as an
association list from key to the absolute fire time of the armed timer; the
`sentNotifications` Set is a duplicate-free-by-construction list; Presenter
invocations (`showNotification` calls, i.e. `windowManager.createNotificationWindow`)
are recorded in an append-only log of the AlertKeys presented.
-/

namespace Jarvis

/-- JS truthiness of an optional string value: `undefined` and `""` are falsy. -/
def jsTruthy : Option String → Bool
  | none => false
  | some s => s ≠ ""

/-- JS `a || b` on optional string values: `a` if truthy, otherwise `b` unchanged. -/
def jsOr (a b : Option String) : Option String :=
  if jsTruthy a then a else b

/-- JS template-literal rendering of an optional string: `undefined` renders as
the string `"undefined"`. -/
def jsToString : Option String → String
  | none => "undefined"
  | some s => s

/-- A calendar event as consumed by `scheduleEventNotifications`.  String fields
mirror the JS object fields (`none` = absent/undefined).  `parsedTime` models the
result of `parseEventDateTime(event.date, event.start || event.startTime)`:
`some t` is the millisecond timestamp `getTime()` of the constructed local `Date`,
`none` a parse failure; the JS local-timezone `Date` construction itself is
abstracted to this already-parsed absolute time. -/
structure Event where
  _id : Option String
  id : Option String
  start : Option String
  startTime : Option String
  date : Option String
  title : Option String
  parsedTime : Option Int
deriving DecidableEq

/-- State of a `NotificationService` instance: the Pending Timer Registry
(`scheduledNotifications`, key -> fire time of the armed timer), the Fired Set
(`sentNotifications`), and the log of Alert Presenter invocations. -/
structure Sched where
  scheduledNotifications : List (String × Int)
  sentNotifications : List String
  presentedLog : List String
deriving DecidableEq

/-- The freshly constructed service: empty Registry, empty Fired Set, no
presentations. -/
def initialSched : Sched := ⟨[], [], []⟩

/-- JS `Map.has` on the Registry. -/
def mapHas (m : List (String × Int)) (k : String) : Bool :=
  m.any (fun p => p.1 == k)

/-- JS `Map.set` on the Registry (replace if present, else append). -/
def mapSet (m : List (String × Int)) (k : String) (v : Int) : List (String × Int) :=
  if mapHas m k then m.map (fun p => if p.1 == k then (k, v) else p) else m ++ [(k, v)]

/-- JS `Map.delete` on the Registry. -/
def mapDelete (m : List (String × Int)) (k : String) : List (String × Int) :=
  m.filter (fun p => !(p.1 == k))

/-- JS `Set.add` on the Fired Set. -/
def setAdd (l : List String) (k : String) : List String :=
  if l.contains k then l else l ++ [k]

/-- The AlertKey: `` `${event._id || event.id}_${type}` ``. -/
def notificationKey (event : Event) (ty : String) : String :=
  jsToString (jsOr event._id event.id) ++ "_" ++ ty

/-- The three AlertPoints of `scheduleEventNotifications`: fire time, type tag and
human label, in source order. -/
def notificationTimes (eventTime : Int) : List (Int × String × String) :=
  [ (eventTime - 30 * 60 * 1000, "30min", "30 minutes"),
    (eventTime - 15 * 60 * 1000, "15min", "15 minutes"),
    (eventTime, "now", "Event starting now") ]

/-- Body of the `notificationTimes.forEach` callback in
`scheduleEventNotifications`: decide one AlertPoint.  In the grace branch
(`timeUntilNotification < 5000`): a strictly past fire time is skipped; otherwise
the alert is shown immediately unless its key is already in the Fired Set.  In
the arm branch the key is skipped when already scheduled or sent, else a timer is
armed at the fire time. -/
def scheduleOneNotification (s : Sched) (event : Event) (currentTime : Int)
    (time : Int) (ty : String) (label : String) : Sched :=
  if time - currentTime < 5000 then
    if time - currentTime < 0 then
      s
    else
      if s.sentNotifications.contains (notificationKey event ty) then
        s
      else
        { s with presentedLog := s.presentedLog ++ [notificationKey event ty],
                 sentNotifications := setAdd s.sentNotifications (notificationKey event ty) }
  else
    if mapHas s.scheduledNotifications (notificationKey event ty)
        || s.sentNotifications.contains (notificationKey event ty) then
      s
    else
      { s with scheduledNotifications :=
                 mapSet s.scheduledNotifications (notificationKey event ty) time }

/-- Method `scheduleEventNotifications(event, currentTime)`: skip events missing a
truthy start time or date, or whose date/time fails to parse, or whose start is
strictly in the past; otherwise decide each of the three AlertPoints in order. -/
def scheduleEventNotifications (s : Sched) (event : Event) (currentTime : Int) : Sched :=
  if !jsTruthy (jsOr event.start event.startTime) || !jsTruthy event.date then
    s
  else
    match event.parsedTime with
    | none => s
    | some eventTime =>
      if eventTime < currentTime then
        s
      else
        (notificationTimes eventTime).foldl
          (fun acc p => scheduleOneNotification acc event currentTime p.1 p.2.1 p.2.2) s

/-- Method `resetNotifications()`: cancel every armed timer, clear the Registry and the
Fired Set. -/
def resetNotifications (s : Sched) : Sched :=
  { s with scheduledNotifications := [], sentNotifications := [] }

/-- Method `cancelEventNotifications(eventId)`: collect the keys of armed timers whose
key starts with `eventId + "_"`, cancel those timers and remove those keys from
the Registry, then remove the same keys from the Fired Set. -/
def cancelEventNotifications (s : Sched) (eventId : String) : Sched :=
  let keysToCancel :=
    (s.scheduledNotifications.map Prod.fst).filter (fun k => k.startsWith (eventId ++ "_"))
  { s with
    scheduledNotifications :=
      s.scheduledNotifications.filter (fun p => !keysToCancel.contains p.1),
    sentNotifications :=
      s.sentNotifications.filter (fun k => !keysToCancel.contains k) }

/-- Outcome of the Calendar Store read in `checkAndScheduleNotifications`:
database not connected, `getEventsForDate` threw (caught by the surrounding
try/catch), or a successful read of today's events (a null result behaves as the
empty list). -/
inductive FetchResult where
  | dbNotConnected : FetchResult
  | fetchError : FetchResult
  | ok : List Event → FetchResult
deriving DecidableEq

/-- Method `checkAndScheduleNotifications(resetFirst)`: on a disconnected database
return untouched; otherwise reset first when requested, then read the events
(a throw lands in the catch, leaving the state as it was at the throw), reset
again on an empty read when `resetFirst`, else run `scheduleEventNotifications`
over every event with the single `now` sampled at the start of the pass. -/
def checkAndScheduleNotifications (s : Sched) (resetFirst : Bool)
    (fetch : FetchResult) (currentTime : Int) : Sched :=
  match fetch with
  | FetchResult.dbNotConnected => s
  | FetchResult.fetchError =>
      if resetFirst then resetNotifications s else s
  | FetchResult.ok events =>
      let s1 := if resetFirst then resetNotifications s else s
      if events.isEmpty then
        if resetFirst then resetNotifications s1 else s1
      else
        events.foldl (fun acc e => scheduleEventNotifications acc e currentTime) s1

/-- Method `refreshNotifications()`: calls `checkAndScheduleNotifications(true)`. -/
def refreshNotifications (s : Sched) (fetch : FetchResult) (currentTime : Int) : Sched :=
  checkAndScheduleNotifications s true fetch currentTime

/-- The `setTimeout` callback armed by `scheduleEventNotifications`: show the
notification, delete the key from the Registry, add it to the Fired Set.  The
callback runs only while its timer is still armed (`clearTimeout` on any
cancellation path also removes the key from the Registry, so Registry membership
coincides with the callback being pending). -/
def fireScheduledNotification (s : Sched) (key : String) : Sched :=
  if mapHas s.scheduledNotifications key then
    { presentedLog := s.presentedLog ++ [key],
      scheduledNotifications := mapDelete s.scheduledNotifications key,
      sentNotifications := setAdd s.sentNotifications key }
  else
    s

/-- One externally observable scheduler step: a 30-second poll tick
(`checkAndScheduleNotifications()` with default `resetFirst = false`), an armed
timer firing, a `refreshNotifications()` call, or a
`cancelEventNotifications(eventId)` call. -/
inductive SchedulerOp where
  | pollTick : FetchResult → Int → SchedulerOp
  | timerFires : String → SchedulerOp
  | refresh : FetchResult → Int → SchedulerOp
  | cancelEvent : String → SchedulerOp
deriving DecidableEq

/-- Apply one scheduler step to the state. -/
def applyOp (s : Sched) : SchedulerOp → Sched
  | SchedulerOp.pollTick f t => checkAndScheduleNotifications s false f t
  | SchedulerOp.timerFires k => fireScheduledNotification s k
  | SchedulerOp.refresh f t => refreshNotifications s f t
  | SchedulerOp.cancelEvent i => cancelEventNotifications s i

/-- Run a sequence of scheduler steps. -/
def runOps (s : Sched) (ops : List SchedulerOp) : Sched :=
  ops.foldl applyOp s

/-- An AlertPoint `(time, ty)` of event `e` is handled in state `s` at clock `t`
when re-processing it would be a skip: inside the 5-second branch it is either
strictly past or already sent, and in the arming branch it is already scheduled
or sent. -/
def pointHandled (s : Sched) (e : Event) (t time : Int) (ty : String) : Prop :=
  (time - t < 5000 → time - t < 0 ∨ s.sentNotifications.contains (notificationKey e ty) = true)
  ∧ (5000 ≤ time - t →
      mapHas s.scheduledNotifications (notificationKey e ty) = true
      ∨ s.sentNotifications.contains (notificationKey e ty) = true)

/-- Every AlertPoint that `scheduleEventNotifications` would actually consider
for event `e` at clock `t` is handled in state `s`. -/
def eventHandled (s : Sched) (e : Event) (t : Int) : Prop :=
  (!jsTruthy (jsOr e.start e.startTime) || !jsTruthy e.date) = false →
  ∀ T, e.parsedTime = some T → ¬ T < t →
  ∀ p ∈ notificationTimes T, pointHandled s e t p.1 p.2.1

/-- Sample event: id `e1`, start parsing to 1832000 ms.  At a poll at clock 0
all three AlertPoints are at least 5 s away; at a poll at clock 30000 the
30-minute AlertPoint (fire time 32000) is 2 s away, inside the grace window. -/
def eventC1 : Event := ⟨some "e1", none, some "14:00", none, some "2026-10-11", some "Standup", some 1832000⟩

/-- Sample event: id `e1`, start parsing to 1798000 ms, so that at clock 0 the
event is in the future but its 30-minute AlertPoint (fire time -2000) elapsed
2 s ago. -/
def eventC2 : Event := ⟨some "e1", none, some "00:29", none, some "2026-10-11", some "Review", some 1798000⟩

/-- Sample event: id `e2`, start parsing to 10000000 ms (far future at clock 0). -/
def eventC3 : Event := ⟨some "e2", none, some "02:47", none, some "2026-10-11", none, some 10000000⟩

/-- Sample event: id `e9`, start parsing to 100 ms (past at clock 200). -/
def eventC5 : Event := ⟨some "e9", none, some "01:00", none, some "2026-10-11", none, some 100⟩

/-- Sample event: id `x`, start parsing to 777 ms. -/
def eventC9 : Event := ⟨some "x", none, some "09:00", none, some "2026-10-11", none, some 777⟩

/-- Sample event lacking both `_id` and `id`, start parsing to 10000 ms. -/
def eventU1 : Event := ⟨none, none, some "10:00", none, some "2026-10-11", some "A", some 10000⟩

/-- Sample event lacking both `_id` and `id`, distinct from `eventU1`, start
parsing to 2000 ms. -/
def eventU2 : Event := ⟨none, none, some "10:00", none, some "2026-10-11", some "B", some 2000⟩

/-- Membership in the Fired Set list is what `Set.has` answers. -/
theorem contains_iff_mem (l : List String) (k : String) : l.contains k = true ↔ k ∈ l :=
  List.elem_iff

/-- Adding a key makes `contains` answer true for it. -/
theorem contains_setAdd_self (l : List String) (k : String) : (setAdd l k).contains k = true := by
  unfold setAdd
  by_cases h : l.contains k = true
  · rw [if_pos h]; exact h
  · rw [if_neg h, contains_iff_mem]
    simp

/-- Function `setAdd` preserves existing membership. -/
theorem contains_setAdd_mono (l : List String) (k k' : String) (h : l.contains k = true) :
    (setAdd l k').contains k = true := by
  unfold setAdd
  by_cases h' : l.contains k' = true
  · rw [if_pos h']; exact h
  · rw [if_neg h', contains_iff_mem]
    rw [contains_iff_mem] at h
    simp [h]

/-- Setting a key makes `mapHas` answer true for it. -/
theorem mapHas_mapSet_self (m : List (String × Int)) (k : String) (v : Int) :
    mapHas (mapSet m k v) k = true := by
  unfold mapSet
  by_cases h : mapHas m k = true
  · simp only [h, if_true]
    unfold mapHas at h ⊢
    rw [List.any_eq_true] at h ⊢
    rcases h with ⟨p, hp, hk⟩
    exact ⟨(k, v), List.mem_map.mpr ⟨p, hp, by simp [hk]⟩, by simp⟩
  · simp only [h]
    unfold mapHas
    rw [List.any_eq_true]
    exact ⟨(k, v), by simp, by simp⟩

/-- Function `mapSet` preserves existing keys. -/
theorem mapHas_mapSet_mono (m : List (String × Int)) (k k' : String) (v : Int)
    (h : mapHas m k = true) : mapHas (mapSet m k' v) k = true := by
  unfold mapSet
  by_cases h' : mapHas m k' = true
  · simp only [h', if_true]
    unfold mapHas at h ⊢
    rw [List.any_eq_true] at h ⊢
    rcases h with ⟨p, hp, hk⟩
    refine ⟨if p.1 == k' then (k', v) else p, List.mem_map.mpr ⟨p, hp, rfl⟩, ?_⟩
    by_cases hpk : (p.1 == k') = true
    · simp only [hpk, if_true]
      have h1 : p.1 = k := by simpa using hk
      have h2 : p.1 = k' := by simpa using hpk
      have hkk : k' = k := by rw [← h2]; exact h1
      simp [hkk]
    · simp only [hpk, if_false]
      exact hk
  · simp only [h']
    unfold mapHas at h ⊢
    rw [List.any_eq_true] at h ⊢
    rcases h with ⟨p, hp, hk⟩
    exact ⟨p, by simp [hp], hk⟩

/-- A strictly past AlertPoint is skipped. -/
theorem scheduleOne_past (s : Sched) (e : Event) (t time : Int) (ty lb : String)
    (h : time - t < 0) : scheduleOneNotification s e t time ty lb = s := by
  unfold scheduleOneNotification
  rw [if_pos (by omega : time - t < 5000), if_pos h]

/-- A grace-window AlertPoint whose key is not yet sent is presented immediately. -/
theorem scheduleOne_grace_new (s : Sched) (e : Event) (t time : Int) (ty lb : String)
    (h0 : 0 ≤ time - t) (h5 : time - t < 5000)
    (hc : s.sentNotifications.contains (notificationKey e ty) = false) :
    scheduleOneNotification s e t time ty lb =
      { s with presentedLog := s.presentedLog ++ [notificationKey e ty],
               sentNotifications := setAdd s.sentNotifications (notificationKey e ty) } := by
  unfold scheduleOneNotification
  rw [if_pos h5, if_neg (by omega : ¬ time - t < 0), if_neg (by rw [hc]; simp)]

/-- A grace-window AlertPoint whose key is already sent is skipped. -/
theorem scheduleOne_grace_sent (s : Sched) (e : Event) (t time : Int) (ty lb : String)
    (h5 : time - t < 5000)
    (hc : s.sentNotifications.contains (notificationKey e ty) = true) :
    scheduleOneNotification s e t time ty lb = s := by
  unfold scheduleOneNotification
  rw [if_pos h5]
  by_cases hneg : time - t < 0
  · rw [if_pos hneg]
  · rw [if_neg hneg, if_pos hc]

/-- A future AlertPoint whose key is already scheduled or sent is skipped. -/
theorem scheduleOne_future_skip (s : Sched) (e : Event) (t time : Int) (ty lb : String)
    (h5 : ¬ time - t < 5000)
    (hc : (mapHas s.scheduledNotifications (notificationKey e ty)
           || s.sentNotifications.contains (notificationKey e ty)) = true) :
    scheduleOneNotification s e t time ty lb = s := by
  unfold scheduleOneNotification
  rw [if_neg h5, if_pos hc]

/-- A future AlertPoint whose key is neither scheduled nor sent arms a timer. -/
theorem scheduleOne_future_arm (s : Sched) (e : Event) (t time : Int) (ty lb : String)
    (h5 : ¬ time - t < 5000)
    (hc : (mapHas s.scheduledNotifications (notificationKey e ty)
           || s.sentNotifications.contains (notificationKey e ty)) = false) :
    scheduleOneNotification s e t time ty lb =
      { s with scheduledNotifications :=
                 mapSet s.scheduledNotifications (notificationKey e ty) time } := by
  unfold scheduleOneNotification
  rw [if_neg h5, if_neg (by rw [hc]; simp)]

/-- Deciding one AlertPoint never removes a key from the Fired Set. -/
theorem scheduleOne_sent_mono (s : Sched) (e : Event) (t time : Int) (ty lb k : String)
    (h : s.sentNotifications.contains k = true) :
    (scheduleOneNotification s e t time ty lb).sentNotifications.contains k = true := by
  unfold scheduleOneNotification
  split
  · split
    · exact h
    · split
      · exact h
      · exact contains_setAdd_mono _ _ _ h
  · split
    · exact h
    · exact h

/-- Deciding one AlertPoint never removes a key from the Registry. -/
theorem scheduleOne_scheduled_mono (s : Sched) (e : Event) (t time : Int) (ty lb k : String)
    (h : mapHas s.scheduledNotifications k = true) :
    mapHas (scheduleOneNotification s e t time ty lb).scheduledNotifications k = true := by
  unfold scheduleOneNotification
  split
  · split
    · exact h
    · split
      · exact h
      · exact h
  · split
    · exact h
    · exact mapHas_mapSet_mono _ _ _ _ h

/-- A handled AlertPoint is skipped: re-deciding it leaves the state unchanged. -/
theorem pointHandled_noop (s : Sched) (e : Event) (t time : Int) (ty : String)
    (h : pointHandled s e t time ty) (lb : String) :
    scheduleOneNotification s e t time ty lb = s := by
  by_cases h5 : time - t < 5000
  · by_cases hneg : time - t < 0
    · exact scheduleOne_past s e t time ty lb hneg
    · rcases h.1 h5 with hneg' | hsent
      · exact absurd hneg' hneg
      · exact scheduleOne_grace_sent s e t time ty lb h5 hsent
  · refine scheduleOne_future_skip s e t time ty lb h5 ?_
    rcases h.2 (by omega) with hhas | hsent
    · rw [hhas]; simp
    · rw [hsent]; simp

/-- After deciding an AlertPoint, that AlertPoint is handled. -/
theorem pointHandled_establish (s : Sched) (e : Event) (t time : Int) (ty lb : String) :
    pointHandled (scheduleOneNotification s e t time ty lb) e t time ty := by
  by_cases h5 : time - t < 5000
  · by_cases hneg : time - t < 0
    · rw [scheduleOne_past s e t time ty lb hneg]
      exact ⟨fun _ => Or.inl hneg, fun hge => absurd hge (by omega)⟩
    · by_cases hc : s.sentNotifications.contains (notificationKey e ty) = true
      · rw [scheduleOne_grace_sent s e t time ty lb h5 hc]
        exact ⟨fun _ => Or.inr hc, fun hge => absurd hge (by omega)⟩
      · rw [Bool.not_eq_true] at hc
        rw [scheduleOne_grace_new s e t time ty lb (by omega) h5 hc]
        refine ⟨fun _ => Or.inr ?_, fun hge => absurd hge (by omega)⟩
        exact contains_setAdd_self _ _
  · by_cases hc : (mapHas s.scheduledNotifications (notificationKey e ty)
        || s.sentNotifications.contains (notificationKey e ty)) = true
    · rw [scheduleOne_future_skip s e t time ty lb h5 hc]
      refine ⟨fun hlt => absurd hlt h5, fun _ => ?_⟩
      rcases Bool.or_eq_true_iff.mp hc with hh | hh
      · exact Or.inl hh
      · exact Or.inr hh
    · rw [Bool.not_eq_true] at hc
      rw [scheduleOne_future_arm s e t time ty lb h5 hc]
      refine ⟨fun hlt => absurd hlt h5, fun _ => Or.inl ?_⟩
      exact mapHas_mapSet_self _ _ _

/-- Handledness of an AlertPoint is preserved by deciding any other AlertPoint. -/
theorem pointHandled_mono (s : Sched) (e : Event) (t time : Int) (ty : String)
    (e' : Event) (t' time' : Int) (ty' lb' : String)
    (h : pointHandled s e t time ty) :
    pointHandled (scheduleOneNotification s e' t' time' ty' lb') e t time ty := by
  constructor
  · intro h5
    rcases h.1 h5 with hneg | hsent
    · exact Or.inl hneg
    · exact Or.inr (scheduleOne_sent_mono _ _ _ _ _ _ _ hsent)
  · intro hge
    rcases h.2 hge with hhas | hsent
    · exact Or.inl (scheduleOne_scheduled_mono _ _ _ _ _ _ _ hhas)
    · exact Or.inr (scheduleOne_sent_mono _ _ _ _ _ _ _ hsent)

/-- Deciding a whole event never removes a key from the Fired Set. -/
theorem scheduleEvent_sent_mono (s : Sched) (e : Event) (t : Int) (k : String)
    (h : s.sentNotifications.contains k = true) :
    (scheduleEventNotifications s e t).sentNotifications.contains k = true := by
  unfold scheduleEventNotifications
  by_cases hg : (!jsTruthy (jsOr e.start e.startTime) || !jsTruthy e.date) = true
  · rw [if_pos hg]; exact h
  · rw [if_neg hg]
    cases hp : e.parsedTime with
    | none => exact h
    | some T =>
      dsimp only
      by_cases hpast : T < t
      · rw [if_pos hpast]; exact h
      · rw [if_neg hpast]
        simp only [notificationTimes, List.foldl]
        exact scheduleOne_sent_mono _ _ _ _ _ _ _
          (scheduleOne_sent_mono _ _ _ _ _ _ _
            (scheduleOne_sent_mono _ _ _ _ _ _ _ h))

/-- Deciding a whole event never removes a key from the Registry. -/
theorem scheduleEvent_scheduled_mono (s : Sched) (e : Event) (t : Int) (k : String)
    (h : mapHas s.scheduledNotifications k = true) :
    mapHas (scheduleEventNotifications s e t).scheduledNotifications k = true := by
  unfold scheduleEventNotifications
  by_cases hg : (!jsTruthy (jsOr e.start e.startTime) || !jsTruthy e.date) = true
  · rw [if_pos hg]; exact h
  · rw [if_neg hg]
    cases hp : e.parsedTime with
    | none => exact h
    | some T =>
      dsimp only
      by_cases hpast : T < t
      · rw [if_pos hpast]; exact h
      · rw [if_neg hpast]
        simp only [notificationTimes, List.foldl]
        exact scheduleOne_scheduled_mono _ _ _ _ _ _ _
          (scheduleOne_scheduled_mono _ _ _ _ _ _ _
            (scheduleOne_scheduled_mono _ _ _ _ _ _ _ h))

/-- Handledness of an AlertPoint is preserved by deciding any event. -/
theorem pointHandled_event_mono (s : Sched) (e : Event) (t time : Int) (ty : String)
    (e' : Event) (h : pointHandled s e t time ty) :
    pointHandled (scheduleEventNotifications s e' t) e t time ty := by
  constructor
  · intro h5
    rcases h.1 h5 with hneg | hsent
    · exact Or.inl hneg
    · exact Or.inr (scheduleEvent_sent_mono _ _ _ _ hsent)
  · intro hge
    rcases h.2 hge with hhas | hsent
    · exact Or.inl (scheduleEvent_scheduled_mono _ _ _ _ hhas)
    · exact Or.inr (scheduleEvent_sent_mono _ _ _ _ hsent)

/-- A fully handled event is skipped: re-deciding it leaves the state unchanged. -/
theorem eventHandled_noop (s : Sched) (e : Event) (t : Int)
    (h : eventHandled s e t) : scheduleEventNotifications s e t = s := by
  unfold scheduleEventNotifications
  by_cases hguard : (!jsTruthy (jsOr e.start e.startTime) || !jsTruthy e.date) = true
  · rw [if_pos hguard]
  · rw [if_neg hguard]
    cases hp : e.parsedTime with
    | none => rfl
    | some T =>
      dsimp only
      by_cases hpast : T < t
      · rw [if_pos hpast]
      · rw [if_neg hpast]
        have hg : (!jsTruthy (jsOr e.start e.startTime) || !jsTruthy e.date) = false := by
          rw [Bool.not_eq_true] at hguard
          exact hguard
        have h30 := h hg T hp hpast (T - 30 * 60 * 1000, "30min", "30 minutes")
          (by simp [notificationTimes])
        have h15 := h hg T hp hpast (T - 15 * 60 * 1000, "15min", "15 minutes")
          (by simp [notificationTimes])
        have hnow := h hg T hp hpast (T, "now", "Event starting now")
          (by simp [notificationTimes])
        simp only [notificationTimes, List.foldl]
        rw [pointHandled_noop _ _ _ _ _ h30 _, pointHandled_noop _ _ _ _ _ h15 _,
          pointHandled_noop _ _ _ _ _ hnow _]

/-- After deciding an event, that event is fully handled. -/
theorem eventHandled_establish (s : Sched) (e : Event) (t : Int) :
    eventHandled (scheduleEventNotifications s e t) e t := by
  intro hg T hp hpast p hmem
  unfold scheduleEventNotifications
  rw [if_neg (by rw [hg]; simp), hp]
  dsimp only
  rw [if_neg hpast]
  simp only [notificationTimes, List.foldl]
  simp only [notificationTimes, List.mem_cons, List.mem_singleton] at hmem
  rcases hmem with rfl | rfl | rfl | hfalse
  · exact pointHandled_mono _ _ _ _ _ _ _ _ _ _
      (pointHandled_mono _ _ _ _ _ _ _ _ _ _ (pointHandled_establish _ _ _ _ _ _))
  · exact pointHandled_mono _ _ _ _ _ _ _ _ _ _ (pointHandled_establish _ _ _ _ _ _)
  · exact pointHandled_establish _ _ _ _ _ _
  · cases hfalse

/-- Handledness of an event is preserved by deciding any other event. -/
theorem eventHandled_mono (s : Sched) (e : Event) (t : Int) (e' : Event)
    (h : eventHandled s e t) : eventHandled (scheduleEventNotifications s e' t) e t := by
  intro hg T hp hpast p hmem
  exact pointHandled_event_mono _ _ _ _ _ _ (h hg T hp hpast p hmem)

/-- Handledness of an event is preserved by a whole scheduling fold. -/
theorem eventHandled_foldl_mono (E : List Event) (s : Sched) (e : Event) (t : Int)
    (h : eventHandled s e t) :
    eventHandled (E.foldl (fun acc x => scheduleEventNotifications acc x t) s) e t := by
  induction E generalizing s with
  | nil => exact h
  | cons x rest ih => exact ih _ (eventHandled_mono _ _ _ _ h)

/-- After a scheduling fold, every event of the list is fully handled. -/
theorem foldl_eventHandled_all (E : List Event) (s : Sched) (t : Int) :
    ∀ e ∈ E, eventHandled (E.foldl (fun acc x => scheduleEventNotifications acc x t) s) e t := by
  induction E generalizing s with
  | nil => intro e he; cases he
  | cons x rest ih =>
    intro e he
    rcases List.mem_cons.mp he with rfl | he'
    · exact eventHandled_foldl_mono rest _ _ _ (eventHandled_establish _ _ _)
    · exact ih _ e he'

/-- A fold over events that are each skipped from state `s` leaves `s` unchanged. -/
theorem foldl_schedule_noop (E : List Event) (s : Sched) (t : Int)
    (h : ∀ e ∈ E, scheduleEventNotifications s e t = s) :
    E.foldl (fun acc x => scheduleEventNotifications acc x t) s = s := by
  induction E with
  | nil => rfl
  | cons x rest ih =>
    simp only [List.foldl]
    rw [h x (List.mem_cons_self x rest)]
    exact ih (fun e he => h e (List.mem_cons_of_mem x he))

/-- A key already in the Fired Set is never presented again and never armed by
deciding one AlertPoint with that key. -/
theorem scheduleOne_sent_skip (s : Sched) (e : Event) (t time : Int) (ty lb : String)
    (h : s.sentNotifications.contains (notificationKey e ty) = true) :
    scheduleOneNotification s e t time ty lb = s := by
  by_cases h5 : time - t < 5000
  · exact scheduleOne_grace_sent s e t time ty lb h5 h
  · exact scheduleOne_future_skip s e t time ty lb h5 (by rw [h]; simp)

/-- Frame property of one AlertPoint decision for a key `k` already in the Fired
Set: `k` stays sent, `k` is not presented again, and the Registry entries for `k`
are untouched. -/
theorem scheduleOne_fired_frame (s : Sched) (e : Event) (t time : Int) (ty lb k : String)
    (h : s.sentNotifications.contains k = true) :
    (scheduleOneNotification s e t time ty lb).sentNotifications.contains k = true ∧
    (scheduleOneNotification s e t time ty lb).presentedLog.count k = s.presentedLog.count k ∧
    (scheduleOneNotification s e t time ty lb).scheduledNotifications.filter (fun p => p.1 == k)
      = s.scheduledNotifications.filter (fun p => p.1 == k) := by
  unfold scheduleOneNotification
  by_cases h5 : time - t < 5000
  · rw [if_pos h5]
    by_cases hneg : time - t < 0
    · rw [if_pos hneg]; exact ⟨h, rfl, rfl⟩
    · rw [if_neg hneg]
      by_cases hc : s.sentNotifications.contains (notificationKey e ty) = true
      · rw [if_pos hc]; exact ⟨h, rfl, rfl⟩
      · rw [if_neg hc]
        have hne : (notificationKey e ty == k) = false := by
          rw [← Bool.not_eq_true]
          intro hb
          have hek : notificationKey e ty = k := by simpa using hb
          rw [hek] at hc
          exact hc h
        refine ⟨contains_setAdd_mono _ _ _ h, ?_, rfl⟩
        simp only [List.count_append, List.count_cons, List.count_nil, hne]
        simp
  · rw [if_neg h5]
    by_cases hc : (mapHas s.scheduledNotifications (notificationKey e ty)
        || s.sentNotifications.contains (notificationKey e ty)) = true
    · rw [if_pos hc]; exact ⟨h, rfl, rfl⟩
    · rw [if_neg hc]
      rw [Bool.not_eq_true, Bool.or_eq_false_iff] at hc
      have hne : (notificationKey e ty == k) = false := by
        rw [← Bool.not_eq_true]
        intro hb
        have hek : notificationKey e ty = k := by simpa using hb
        have := hc.2
        rw [hek, h] at this
        cases this
      refine ⟨h, rfl, ?_⟩
      unfold mapSet
      rw [if_neg (by rw [hc.1]; simp)]
      rw [List.filter_append]
      simp [hne]

/-- Frame property of a whole event decision for a key already in the Fired Set. -/
theorem scheduleEvent_fired_frame (s : Sched) (e : Event) (t : Int) (k : String)
    (h : s.sentNotifications.contains k = true) :
    (scheduleEventNotifications s e t).sentNotifications.contains k = true ∧
    (scheduleEventNotifications s e t).presentedLog.count k = s.presentedLog.count k ∧
    (scheduleEventNotifications s e t).scheduledNotifications.filter (fun p => p.1 == k)
      = s.scheduledNotifications.filter (fun p => p.1 == k) := by
  unfold scheduleEventNotifications
  by_cases hg : (!jsTruthy (jsOr e.start e.startTime) || !jsTruthy e.date) = true
  · rw [if_pos hg]; exact ⟨h, rfl, rfl⟩
  · rw [if_neg hg]
    cases hp : e.parsedTime with
    | none => exact ⟨h, rfl, rfl⟩
    | some T =>
      dsimp only
      by_cases hpast : T < t
      · rw [if_pos hpast]; exact ⟨h, rfl, rfl⟩
      · rw [if_neg hpast]
        simp only [notificationTimes, List.foldl]
        obtain ⟨ha1, ha2, ha3⟩ := scheduleOne_fired_frame s e t (T - 30 * 60 * 1000)
          "30min" "30 minutes" k h
        obtain ⟨hb1, hb2, hb3⟩ := scheduleOne_fired_frame _ e t (T - 15 * 60 * 1000)
          "15min" "15 minutes" k ha1
        obtain ⟨hd1, hd2, hd3⟩ := scheduleOne_fired_frame _ e t T
          "now" "Event starting now" k hb1
        exact ⟨hd1, by rw [hd2, hb2, ha2], by rw [hd3, hb3, ha3]⟩

/-- Frame property of a whole scheduling fold for a key already in the Fired Set. -/
theorem foldl_fired_frame (E : List Event) (s : Sched) (t : Int) (k : String)
    (h : s.sentNotifications.contains k = true) :
    (E.foldl (fun acc x => scheduleEventNotifications acc x t) s).sentNotifications.contains k
        = true ∧
    (E.foldl (fun acc x => scheduleEventNotifications acc x t) s).presentedLog.count k
        = s.presentedLog.count k ∧
    (E.foldl (fun acc x => scheduleEventNotifications acc x t) s).scheduledNotifications.filter
        (fun p => p.1 == k)
      = s.scheduledNotifications.filter (fun p => p.1 == k) := by
  induction E generalizing s with
  | nil => exact ⟨h, rfl, rfl⟩
  | cons x rest ih =>
    simp only [List.foldl_cons]
    obtain ⟨ha1, ha2, ha3⟩ := scheduleEvent_fired_frame s x t k h
    obtain ⟨hb1, hb2, hb3⟩ := ih _ ha1
    exact ⟨hb1, by rw [hb2, ha2], by rw [hb3, ha3]⟩

/-- Membership of a key in `keysToCancel` of `cancelEventNotifications`, as a
Boolean equation: a key is collected exactly when it has an armed timer and
starts with the event id and an underscore. -/
theorem keysToCancel_contains (m : List (String × Int)) (pre k : String) :
    ((m.map Prod.fst).filter (fun x => x.startsWith pre)).contains k
      = (mapHas m k && k.startsWith pre) := by
  by_cases hmem : k ∈ (m.map Prod.fst).filter (fun x => x.startsWith pre)
  · have h1 := List.mem_filter.mp hmem
    have hL : ((m.map Prod.fst).filter (fun x => x.startsWith pre)).contains k = true :=
      (contains_iff_mem _ _).mpr hmem
    have hsw : k.startsWith pre = true := h1.2
    have hhas : mapHas m k = true := by
      rcases List.mem_map.mp h1.1 with ⟨p, hp, hk⟩
      unfold mapHas
      rw [List.any_eq_true]
      exact ⟨p, hp, by simp [hk]⟩
    rw [hL, hhas, hsw]
    rfl
  · have hL : ((m.map Prod.fst).filter (fun x => x.startsWith pre)).contains k = false := by
      rw [← Bool.not_eq_true, contains_iff_mem]
      exact hmem
    rw [hL]
    by_cases hsw : k.startsWith pre = true
    · have hhas : mapHas m k = false := by
        rw [← Bool.not_eq_true]
        unfold mapHas
        rw [List.any_eq_true]
        rintro ⟨p, hp, hpk⟩
        have hk : p.1 = k := by simpa using hpk
        exact hmem (List.mem_filter.mpr ⟨List.mem_map.mpr ⟨p, hp, hk⟩, hsw⟩)
      rw [hhas, Bool.false_and]
    · have hsw2 : k.startsWith pre = false := by rw [← Bool.not_eq_true]; exact hsw
      rw [hsw2, Bool.and_false]

/-- C1: the claim fails and the code is at fault.  One pass at clock 0 arms a
timer for AlertKey "e1_30min" (fire time 32000); the next poll at clock 30000
sees that fire time 2 s away, inside the 5-second grace window, and — because the
grace branch consults only the Fired Set, never the Pending Timer Registry —
presents the alert immediately; the still-armed timer then fires and presents it
a second time.  The Alert Presenter is invoked twice for the same AlertKey in one
epoch, with no intervening reset. -/
theorem c1_duplicate_presentation :
    (runOps initialSched
      [SchedulerOp.pollTick (FetchResult.ok [eventC1]) 0,
       SchedulerOp.pollTick (FetchResult.ok [eventC1]) 30000,
       SchedulerOp.timerFires "e1_30min"]).presentedLog = ["e1_30min", "e1_30min"] := by
  rfl

/-- C2 counterexample: `eventC2` is non-past at clock 0 (start 1798000), and its
30-minute AlertPoint's fire time elapsed exactly 2 s ago; the claim says that
alert fires immediately, but the pass presents nothing, arms no timer for the
key and marks nothing sent — the alert is dropped, not fired. -/
theorem c2_counterexample :
    (0 : Int) ≤ 1798000 ∧
    eventC2.parsedTime = some 1798000 ∧
    (1798000 - 30 * 60 * 1000 : Int) = -2000 ∧
    (scheduleEventNotifications initialSched eventC2 0).presentedLog = [] ∧
    mapHas (scheduleEventNotifications initialSched eventC2 0).scheduledNotifications "e1_30min"
      = false ∧
    (scheduleEventNotifications initialSched eventC2 0).sentNotifications = [] := by
  exact ⟨by norm_num, rfl, by norm_num, rfl, rfl, rfl⟩

/-- C2 (amended): an AlertPoint whose fire time is strictly in the past —
whether by 2 or by 40 seconds — is skipped and never fires; the immediate-fire
branch applies exactly when the fire time is between now (inclusive) and
5 seconds in the future (exclusive) and the key is not yet in the Fired Set. -/
theorem c2_amended_grace_window :
    ∀ (s : Sched) (e : Event) (t time : Int) (ty lb : String),
      (time - t < 0 → scheduleOneNotification s e t time ty lb = s) ∧
      (0 ≤ time - t → time - t < 5000 →
        s.sentNotifications.contains (notificationKey e ty) = false →
        scheduleOneNotification s e t time ty lb =
          { s with presentedLog := s.presentedLog ++ [notificationKey e ty],
                   sentNotifications := setAdd s.sentNotifications (notificationKey e ty) }) :=
  fun s e t time ty lb =>
    ⟨scheduleOne_past s e t time ty lb, scheduleOne_grace_new s e t time ty lb⟩

/-- Witness for `c2_amended_grace_window` at concrete inputs: a fire time 2 s in
the past is skipped; a fire time 2 s in the future fires immediately. -/
theorem c2_amended_grace_window_witness :
    scheduleOneNotification initialSched eventC2 0 (-2000) "30min" "30 minutes" = initialSched ∧
    scheduleOneNotification initialSched eventC2 0 2000 "30min" "30 minutes" =
      { initialSched with
          presentedLog := initialSched.presentedLog ++ [notificationKey eventC2 "30min"],
          sentNotifications := setAdd initialSched.sentNotifications (notificationKey eventC2 "30min") } :=
  ⟨(c2_amended_grace_window initialSched eventC2 0 (-2000) "30min" "30 minutes").1 (by norm_num),
   (c2_amended_grace_window initialSched eventC2 0 2000 "30min" "30 minutes").2
     (by norm_num) (by norm_num) rfl⟩

/-- C3 counterexample: a key sits in the Fired Set, and after `refresh()` with a
calendar holding one far-future event the Fired Set no longer holds it —
`refreshNotifications` passes `resetFirst = true`, wiping the Fired Set before
the per-event decisions begin. -/
theorem c3_counterexample :
    ("e1_30min" ∈ (⟨[], ["e1_30min"], []⟩ : Sched).sentNotifications) ∧
    (refreshNotifications ⟨[], ["e1_30min"], []⟩ (FetchResult.ok [eventC3]) 0).sentNotifications
      = [] := by
  exact ⟨by simp, rfl⟩

/-- C3 (amended): `refresh()` triggers an immediate reconciliation pass that
first performs a reset — it clears both the Pending Timer Registry and the Fired
Set, and the per-event decisions start from that reset state; on a read failure
only the reset happens. -/
theorem c3_amended_refresh_resets :
    ∀ (s : Sched) (events : List Event) (t : Int),
      refreshNotifications s (FetchResult.ok events) t
        = events.foldl (fun acc e => scheduleEventNotifications acc e t) (resetNotifications s) ∧
      refreshNotifications s FetchResult.fetchError t = resetNotifications s := by
  intro s events t
  refine ⟨?_, rfl⟩
  cases events with
  | nil => rfl
  | cons e rest => rfl

/-- C4 counterexample: AlertKey "e1_30min" of event `e1` is in the Fired Set
only (its alert already fired, no armed timer); after
`cancelEventNotifications("e1")` it is still in the Fired Set, though the claim
says every matching key is removed. -/
theorem c4_counterexample :
    ("e1_30min" ∈ (⟨[], ["e1_30min"], []⟩ : Sched).sentNotifications) ∧
    (cancelEventNotifications ⟨[], ["e1_30min"], []⟩ "e1").sentNotifications = ["e1_30min"] := by
  exact ⟨by simp, rfl⟩

/-- C4 (amended): after `cancelForEvent(eventId)` (i) no armed timer remains for
any key starting with `eventId + "_"` — the Registry keeps exactly its
non-matching entries — and (ii) a matching key is removed from the Fired Set only
when it also had an armed timer; keys present only in the Fired Set remain. -/
theorem c4_amended_cancel_scope :
    ∀ (s : Sched) (eventId : String),
      (cancelEventNotifications s eventId).scheduledNotifications
        = s.scheduledNotifications.filter (fun p => !(p.1.startsWith (eventId ++ "_"))) ∧
      (cancelEventNotifications s eventId).sentNotifications
        = s.sentNotifications.filter
            (fun k => !(mapHas s.scheduledNotifications k && k.startsWith (eventId ++ "_"))) ∧
      (cancelEventNotifications s eventId).presentedLog = s.presentedLog := by
  intro s eventId
  simp only [cancelEventNotifications]
  refine ⟨?_, ?_, trivial⟩
  · apply List.filter_congr
    intro p hp
    rw [keysToCancel_contains]
    have hhas : mapHas s.scheduledNotifications p.1 = true := by
      unfold mapHas
      rw [List.any_eq_true]
      exact ⟨p, hp, by simp⟩
    rw [hhas, Bool.true_and]
  · apply List.filter_congr
    intro k hk
    rw [keysToCancel_contains]

/-- C5: an event whose parsed start time is strictly before `now` is skipped
entirely by the pass — the state (Registry, Fired Set, presentation log) is
unchanged, so no AlertPoint is produced, no timer armed, no alert presented. -/
theorem c5_past_event_produces_nothing :
    ∀ (s : Sched) (e : Event) (t T : Int),
      e.parsedTime = some T → T < t → scheduleEventNotifications s e t = s := by
  intro s e t T hp hlt
  unfold scheduleEventNotifications
  by_cases hg : (!jsTruthy (jsOr e.start e.startTime) || !jsTruthy e.date) = true
  · rw [if_pos hg]
  · rw [if_neg hg, hp]
    dsimp only
    rw [if_pos hlt]

/-- Witness for `c5_past_event_produces_nothing`: `eventC5` starts at 100 ms,
polled at clock 200. -/
theorem c5_past_event_witness :
    eventC5.parsedTime = some 100 ∧ (100 : Int) < 200 ∧
    scheduleEventNotifications initialSched eventC5 200 = initialSched :=
  ⟨rfl, by norm_num,
   c5_past_event_produces_nothing initialSched eventC5 200 100 rfl (by norm_num)⟩

/-- C8: if the Calendar Store read fails during a regular poll (no reset
requested), whether because the database is not connected or because
`getEventsForDate` threw, the pass is abandoned and the state — Registry, Fired
Set and presentation log — is exactly as before the pass. -/
theorem c8_read_failure_pass_abandoned :
    ∀ (s : Sched) (t : Int),
      checkAndScheduleNotifications s false FetchResult.fetchError t = s ∧
      checkAndScheduleNotifications s false FetchResult.dbNotConnected t = s :=
  fun _ _ => ⟨rfl, rfl⟩

/-- C6: Fired-Set invariant.  If AlertKey `k` is in the Fired Set before a
regular reconciliation pass (no reset requested), then after the pass `k` is
still in the Fired Set, the Alert Presenter has not been invoked again for `k`
(its count in the presentation log is unchanged), and the Registry's entries for
`k` are exactly what they were — in particular no new timer was armed for `k`. -/
theorem c6_fired_set_invariant :
    ∀ (s : Sched) (fetch : FetchResult) (t : Int) (k : String),
      k ∈ s.sentNotifications →
      k ∈ (checkAndScheduleNotifications s false fetch t).sentNotifications ∧
      (checkAndScheduleNotifications s false fetch t).presentedLog.count k
        = s.presentedLog.count k ∧
      (checkAndScheduleNotifications s false fetch t).scheduledNotifications.filter
          (fun p => p.1 == k)
        = s.scheduledNotifications.filter (fun p => p.1 == k) := by
  intro s fetch t k hk
  have h : s.sentNotifications.contains k = true := (contains_iff_mem _ _).mpr hk
  cases fetch with
  | dbNotConnected => exact ⟨hk, rfl, rfl⟩
  | fetchError => exact ⟨hk, rfl, rfl⟩
  | ok events =>
    cases events with
    | nil => exact ⟨hk, rfl, rfl⟩
    | cons e rest =>
      have hred : checkAndScheduleNotifications s false (FetchResult.ok (e :: rest)) t
          = (e :: rest).foldl (fun acc x => scheduleEventNotifications acc x t) s := rfl
      rw [hred]
      obtain ⟨h1, h2, h3⟩ := foldl_fired_frame (e :: rest) s t k h
      exact ⟨(contains_iff_mem _ _).mp h1, h2, h3⟩

/-- Witness for `c6_fired_set_invariant`: key "e1_30min" already fired, a pass
over `eventC1` at clock 0 keeps it fired, presents nothing for it and arms no
timer for it. -/
theorem c6_fired_set_invariant_witness :
    ("e1_30min" ∈ (⟨[], ["e1_30min"], []⟩ : Sched).sentNotifications) ∧
    ("e1_30min" ∈ (checkAndScheduleNotifications ⟨[], ["e1_30min"], []⟩ false
        (FetchResult.ok [eventC1]) 0).sentNotifications ∧
      (checkAndScheduleNotifications ⟨[], ["e1_30min"], []⟩ false
          (FetchResult.ok [eventC1]) 0).presentedLog.count "e1_30min"
        = (⟨[], ["e1_30min"], []⟩ : Sched).presentedLog.count "e1_30min" ∧
      (checkAndScheduleNotifications ⟨[], ["e1_30min"], []⟩ false
          (FetchResult.ok [eventC1]) 0).scheduledNotifications.filter
          (fun p => p.1 == "e1_30min")
        = (⟨[], ["e1_30min"], []⟩ : Sched).scheduledNotifications.filter
            (fun p => p.1 == "e1_30min")) :=
  ⟨by simp,
   c6_fired_set_invariant ⟨[], ["e1_30min"], []⟩ (FetchResult.ok [eventC1]) 0 "e1_30min"
     (by simp)⟩

/-- C7: reconciliation is idempotent.  Running the regular pass (no reset) twice
with the same clock and the same calendar snapshot gives exactly the state of the
first pass — the second pass arms no timer, presents nothing and changes neither
the Registry nor the Fired Set. -/
theorem c7_reconciliation_idempotent :
    ∀ (s : Sched) (fetch : FetchResult) (t : Int),
      checkAndScheduleNotifications (checkAndScheduleNotifications s false fetch t) false fetch t
        = checkAndScheduleNotifications s false fetch t := by
  intro s fetch t
  cases fetch with
  | dbNotConnected => rfl
  | fetchError => rfl
  | ok events =>
    cases events with
    | nil => rfl
    | cons e rest =>
      have hred : ∀ x : Sched,
          checkAndScheduleNotifications x false (FetchResult.ok (e :: rest)) t
            = (e :: rest).foldl (fun acc y => scheduleEventNotifications acc y t) x :=
        fun x => rfl
      rw [hred, hred]
      exact foldl_schedule_noop (e :: rest) _ t
        (fun x hx => eventHandled_noop _ x t (foldl_eventHandled_all (e :: rest) s t x hx))

/-- C9: an event whose parsed start time equals `now` exactly is not skipped as
past (the check is strict), and its at-start AlertPoint (fire delta 0, inside
the under-5-seconds branch) is presented immediately during the pass, provided
its key is not already in the Fired Set; the 30- and 15-minute AlertPoints are
already past and contribute nothing. -/
theorem c9_event_starting_exactly_now_fires :
    ∀ (s : Sched) (e : Event) (t : Int),
      jsTruthy (jsOr e.start e.startTime) = true →
      jsTruthy e.date = true →
      e.parsedTime = some t →
      s.sentNotifications.contains (notificationKey e "now") = false →
      scheduleEventNotifications s e t =
        { s with presentedLog := s.presentedLog ++ [notificationKey e "now"],
                 sentNotifications := setAdd s.sentNotifications (notificationKey e "now") } := by
  intro s e t hst hd hp hc
  unfold scheduleEventNotifications
  rw [if_neg (by rw [hst, hd]; simp), hp]
  dsimp only
  rw [if_neg (by omega : ¬ t < t)]
  simp only [notificationTimes, List.foldl]
  rw [scheduleOne_past s e t (t - 30 * 60 * 1000) "30min" "30 minutes" (by omega),
      scheduleOne_past s e t (t - 15 * 60 * 1000) "15min" "15 minutes" (by omega),
      scheduleOne_grace_new s e t t "now" "Event starting now" (by omega) (by omega) hc]

/-- Witness for `c9_event_starting_exactly_now_fires`: `eventC9` starts at
777 ms and the pass runs at clock 777; its at-start alert is presented. -/
theorem c9_event_starting_exactly_now_witness :
    jsTruthy (jsOr eventC9.start eventC9.startTime) = true ∧
    jsTruthy eventC9.date = true ∧
    eventC9.parsedTime = some 777 ∧
    initialSched.sentNotifications.contains (notificationKey eventC9 "now") = false ∧
    scheduleEventNotifications initialSched eventC9 777 =
      { initialSched with
          presentedLog := initialSched.presentedLog ++ [notificationKey eventC9 "now"],
          sentNotifications := setAdd initialSched.sentNotifications (notificationKey eventC9 "now") } :=
  ⟨rfl, rfl, rfl, rfl,
   c9_event_starting_exactly_now_fires initialSched eventC9 777 rfl rfl rfl rfl⟩

/-- C10 counterexample: `eventU1` and `eventU2` are distinct events both lacking
`_id` and `id`; a pass at clock 0 first arms `eventU1`'s at-start alert under key
"undefined_now", yet processing `eventU2`'s at-start AlertPoint (2 s away, inside
the grace window) is not skipped as a duplicate: it presents the alert, because
the grace branch never consults the Pending Timer Registry. -/
theorem c10_counterexample :
    eventU1 ≠ eventU2 ∧
    eventU1._id = none ∧ eventU1.id = none ∧ eventU2._id = none ∧ eventU2.id = none ∧
    (scheduleEventNotifications initialSched eventU1 0).scheduledNotifications
      = [("undefined_now", 10000)] ∧
    (scheduleEventNotifications initialSched eventU1 0).presentedLog = [] ∧
    (scheduleEventNotifications (scheduleEventNotifications initialSched eventU1 0) eventU2 0).presentedLog
      = ["undefined_now"] := by
  refine ⟨by decide, rfl, rfl, rfl, rfl, rfl, rfl, rfl⟩

/-- C10 (amended): for two events both lacking `_id` and `id`, same-kind
AlertPoints collapse to the identical key `"undefined_" ++ kind`; once that key
is in the Fired Set any same-kind AlertPoint is skipped, and an armed timer
under that key causes a skip exactly for AlertPoints at least 5 seconds in the
future — a same-key AlertPoint inside the grace window is not blocked by the
armed timer. -/
theorem c10_undefined_key_collision :
    ∀ (e1 e2 : Event) (ty : String),
      e1._id = none → e1.id = none → e2._id = none → e2.id = none →
      (notificationKey e1 ty = notificationKey e2 ty ∧
        notificationKey e1 ty = "undefined_" ++ ty) ∧
      (∀ (s : Sched) (t time : Int) (lb : String),
        (s.sentNotifications.contains (notificationKey e2 ty) = true →
          scheduleOneNotification s e2 t time ty lb = s) ∧
        (¬ time - t < 5000 →
          mapHas s.scheduledNotifications (notificationKey e2 ty) = true →
          scheduleOneNotification s e2 t time ty lb = s)) := by
  intro e1 e2 ty h1 h2 h3 h4
  constructor
  · constructor
    · unfold notificationKey
      rw [h1, h2, h3, h4]
    · unfold notificationKey
      rw [h1, h2]
      rfl
  · intro s t time lb
    constructor
    · intro hsent
      exact scheduleOne_sent_skip s e2 t time ty lb hsent
    · intro h5 hhas
      exact scheduleOne_future_skip s e2 t time ty lb h5 (by rw [hhas]; simp)

/-- Witness for `c10_undefined_key_collision` at `eventU1`, `eventU2`, kind
"now": the keys coincide, a sent key is skipped, and an armed far-future key is
skipped. -/
theorem c10_undefined_key_collision_witness :
    (notificationKey eventU1 "now" = notificationKey eventU2 "now" ∧
      notificationKey eventU1 "now" = "undefined_" ++ "now") ∧
    (scheduleOneNotification ⟨[], ["undefined_now"], []⟩ eventU2 0 2000 "now" "Event starting now"
        = ⟨[], ["undefined_now"], []⟩ ∧
      scheduleOneNotification ⟨[("undefined_now", 10000)], [], []⟩ eventU2 0 10000 "now"
          "Event starting now"
        = ⟨[("undefined_now", 10000)], [], []⟩) :=
  ⟨(c10_undefined_key_collision eventU1 eventU2 "now" rfl rfl rfl rfl).1,
   ((c10_undefined_key_collision eventU1 eventU2 "now" rfl rfl rfl rfl).2
       ⟨[], ["undefined_now"], []⟩ 0 2000 "Event starting now").1 rfl,
   ((c10_undefined_key_collision eventU1 eventU2 "now" rfl rfl rfl rfl).2
       ⟨[("undefined_now", 10000)], [], []⟩ 0 10000 "Event starting now").2
     (by norm_num) rfl⟩

end Jarvis
